import Mathlib

/-!
Shallow embedding of `src/classifiers/xgb/xgb_train.py` (XGBoost training
script).  Python dictionaries over scalar hyperparameter values are modelled
as association lists in insertion order; a scalar is an integer, a float
(embedded as a rational) or a string.  The random draws that the hyperopt
library performs are made explicit as a `HypSample` record, so every function
of the script becomes a pure Lean function of its inputs and of the sampled
randomness.
-/

/-- Scalar value of a Python hyperparameter dictionary: `int`, `float`
(modelled as a rational) or `str`. -/
inductive Val where
  | vInt (n : Int)
  | vFloat (q : Rat)
  | vStr (s : String)
  deriving DecidableEq, Repr

/-- Python dictionary over string keys, in insertion order. -/
abbrev Dict := List (String × Val)

/-- Python dictionary assignment `d[k] = v`: overwrite in place if the key is
present, otherwise append at the end (insertion order). -/
def dictSet (d : Dict) (k : String) (v : Val) : Dict :=
  if d.any (fun p => p.1 = k) then
    d.map (fun p => if p.1 = k then (k, v) else p)
  else d ++ [(k, v)]

/-- Python dictionary lookup `d[k]` (first binding; our dictionaries never
hold duplicate keys). -/
def dictGet (d : Dict) (k : String) : Option Val :=
  (d.find? (fun p => p.1 = k)).map Prod.snd

/-- Python `{**d, **e}`: keys of `d` in order, values overridden by `e`,
then the new keys of `e` appended in order. -/
def dictMerge (d e : Dict) : Dict :=
  e.foldl (fun acc p => dictSet acc p.1 p.2) d

/-- Keys of a dictionary, in insertion order. -/
def dictKeys (d : Dict) : List String := d.map Prod.fst

/-- One i.i.d. sample of every random draw `hyperopt.pyll.stochastic.sample`
makes for the space `hp.choice('booster', [gbtree_hyp, {**gbtree_hyp,
**dart_hyp}])`: the branch choice, the six continuous draws of `gbtree_hyp`,
and the two categorical plus two continuous draws of `dart_hyp`. -/
structure HypSample where
  /-- branch of `hp.choice('booster', ...)`: `true` picks the dart branch. -/
  useDart : Bool
  /-- draw of `hp.uniform('lr', 0.01, 0.17)`. -/
  lr : Rat
  /-- draw of `hp.uniform('mlr', 0.05, 2.5)`. -/
  mlr : Rat
  /-- draw of `hp.uniform('mcw', 0, 2)`. -/
  mcw : Rat
  /-- draw of the underlying uniform of `hp.quniform('md', 3, 9, 1)`,
  before quantization. -/
  md : Rat
  /-- draw of `hp.uniform('ss', 0.7, 1)`. -/
  ss : Rat
  /-- draw of `hp.uniform('cs', 0.7, 1)`. -/
  cs : Rat
  /-- draw of `hp.choice('dart_st', ['uniform', 'weighted'])`:
  `true` picks `'uniform'`. -/
  dart_st : Bool
  /-- draw of `hp.choice('dart_nt', ['tree', 'forest'])`:
  `true` picks `'tree'`. -/
  dart_nt : Bool
  /-- draw of `hp.uniform('dropout', 0, 0.3)`. -/
  dropout : Rat
  /-- draw of `hp.uniform('skip', 0, 0.25)`. -/
  skip : Rat

/-- The draws of a `HypSample` lie in the ranges the priors of `xgb_hyp`
declare. -/
def validSample (s : HypSample) : Prop :=
  1/100 ≤ s.lr ∧ s.lr ≤ 17/100 ∧
  1/20 ≤ s.mlr ∧ s.mlr ≤ 5/2 ∧
  0 ≤ s.mcw ∧ s.mcw ≤ 2 ∧
  3 ≤ s.md ∧ s.md ≤ 9 ∧
  7/10 ≤ s.ss ∧ s.ss ≤ 1 ∧
  7/10 ≤ s.cs ∧ s.cs ≤ 1 ∧
  0 ≤ s.dropout ∧ s.dropout ≤ 3/10 ∧
  0 ≤ s.skip ∧ s.skip ≤ 1/4

instance (s : HypSample) : Decidable (validSample s) := by
  unfold validSample; infer_instance

/-- Python `round` on a rational (round half to even), used by hyperopt's
`quniform` with `q = 1`. -/
def pyRound (x : Rat) : Int :=
  if x - ⌊x⌋ < 1/2 then ⌊x⌋
  else if 1/2 < x - ⌊x⌋ then ⌊x⌋ + 1
  else if 2 ∣ ⌊x⌋ then ⌊x⌋ else ⌊x⌋ + 1

/-- The `gbtree_hyp` dictionary of `xgb_hyp`, with the hyperopt priors
replaced by the values `s` draws from them; `hp.quniform('md', 3, 9, 1)`
yields `round(u / 1) * 1` as a float. -/
def gbtree_hyp (s : HypSample) : Dict :=
  [("booster", .vStr "gbtree"),
   ("eta", .vFloat s.lr),
   ("gamma", .vFloat s.mlr),
   ("min_child_weight", .vFloat s.mcw),
   ("max_depth", .vFloat (pyRound s.md : Int)),
   ("subsample", .vFloat s.ss),
   ("colsample_bytree", .vFloat s.cs),
   ("objective", .vStr "binary:logistic"),
   ("silent", .vInt 1)]

/-- The `dart_hyp` dictionary of `xgb_hyp`, with the hyperopt draws made
explicit. -/
def dart_hyp (s : HypSample) : Dict :=
  [("booster", .vStr "dart"),
   ("sample_type", .vStr (if s.dart_st then "uniform" else "weighted")),
   ("normalize_type", .vStr (if s.dart_nt then "tree" else "forest")),
   ("rate_drop", .vFloat s.dropout),
   ("skip_drop", .vFloat s.skip)]

/-- The coercion loop of `get_hyp_config`: `if type(v) == float and
int(v) == v: params[k] = int(v)` — a whole-number float becomes an int. -/
def coerceWholeFloat (v : Val) : Val :=
  match v with
  | .vFloat q => if q.den = 1 then .vInt q.num else .vFloat q
  | v => v

/-- The dictionary `hyperopt.pyll.stochastic.sample(space)` returns for
`space = hp.choice('booster', [gbtree_hyp, {**gbtree_hyp, **dart_hyp}])`,
before `get_hyp_config`'s coercion and filtering.  The source spells the
filter test `v is not 'default'`; on the values this space can produce the
identity test and the equality test agree, as no sampled value is ever the
string `'default'`. -/
def raw_sample (s : HypSample) : Dict :=
  if s.useDart then dictMerge (gbtree_hyp s) (dart_hyp s) else gbtree_hyp s

/-- The coercion and filtering that `get_hyp_config` applies to the raw
sample. -/
def get_hyp_config (s : HypSample) : Dict :=
  let params := (raw_sample s).map (fun p => (p.1, coerceWholeFloat p.2))
  params.filter (fun p => p.2 ≠ .vStr "default")

/-- The function `hp_default_config(deep)`: one of two fixed dictionaries. -/
def hp_default_config (deep : Bool) : Dict :=
  if deep then
    [("eta", .vFloat (1/10)), ("seed", .vInt 0), ("subsample", .vFloat (3/4)),
     ("colsample_bytree", .vFloat (85/100)), ("gamma", .vFloat (5/2)),
     ("objective", .vStr "binary:logistic"), ("max_depth", .vInt 8),
     ("min_child_weight", .vFloat (2/5)), ("silent", .vInt 1)]
  else
    [("eta", .vFloat (1/10)), ("seed", .vInt 0), ("subsample", .vFloat (4/5)),
     ("colsample_bytree", .vFloat (9/10)), ("gamma", .vFloat (8/5)),
     ("objective", .vStr "binary:logistic"), ("max_depth", .vInt 6),
     ("min_child_weight", .vInt 1), ("silent", .vInt 1)]

/-!
Trainer (`train_hyp_config`).  The call into `xgb.train` and the on-disk
model are opaque library behaviour; what the script itself does is (a) mutate
the caller's dictionary by `hyp_params['eval_metric'] = 'error@0.5'`,
(b) build the parameter list `pList = list(hyp_params.items()) +
[('eval_metric', 'auc')]`, and (c) read the booster attributes back into the
evaluation record.  The booster attributes are modelled as a record.
-/

/-- Attributes the trained booster exposes after early stopping
(`bst.attr(...)`, already parsed to their numeric types where the script
applies `float(...)` / `int(...)`). -/
structure Booster where
  best_score : Rat
  best_msg : String
  best_iteration : Int

/-- State of the caller's `hyp_params` dictionary after `train_hyp_config`
returns: the line `hyp_params['eval_metric'] = 'error@0.5'` mutates it in
place. -/
def train_hyp_config_hyp (hyp_params : Dict) : Dict :=
  dictSet hyp_params "eval_metric" (.vStr "error@0.5")

/-- The parameter list handed to `xgb.train`:
`list(hyp_params.items()) + [('eval_metric', 'auc')]`, built after the
in-place mutation. -/
def train_hyp_config_pList (hyp_params : Dict) : Dict :=
  train_hyp_config_hyp hyp_params ++ [("eval_metric", .vStr "auc")]

/-- Python `str.split('\t')` on a character list: splits at every tab, so
the empty string yields `[""]`, and a trailing tab yields a trailing empty
field. -/
def splitTabs : List Char → List (List Char)
  | [] => [[]]
  | c :: cs =>
    if c = '\t' then [] :: splitTabs cs
    else
      match splitTabs cs with
      | [] => [[c]]
      | h :: t => (c :: h) :: t

/-- Python `s.split('\t')` as a list of strings. -/
def pySplitTab (s : String) : List String :=
  (splitTabs s.data).map (fun l => String.mk l)

/-- The evaluation record `evalDict` that `train_hyp_config` builds from the
booster attributes; `bst.attr('best_msg').split('\t')[-2]` raises
`IndexError` when the split has fewer than two fields, so the record is
`none` in that case. -/
def mk_evalDict (bst : Booster) : Option Dict :=
  let fields := pySplitTab bst.best_msg
  if 2 ≤ fields.length then
    some [("auc", .vFloat bst.best_score),
          ("error@0.5", .vStr (fields.getD (fields.length - 2) "")),
          ("best_iteration", .vInt bst.best_iteration)]
  else none

/-- Round resolution of `__main__`: `num_boost_rounds = 512` then
`if args.num_boost_rounds: num_boost_rounds = args.num_boost_rounds` — the
flag value is `None` when absent, and Python truthiness also rejects `0`. -/
def resolve_num_boost_rounds (arg : Option Int) : Int :=
  match arg with
  | none => 512
  | some n => if n = 0 then 512 else n

/-!
Data loader (`load_data`).  A pandas dataframe is a list of column names
plus a list of rows of rationals.  `sklearn.model_selection.train_test_split`
with a float `test_size` and an integer `random_state` draws a pseudo-random
permutation of the row indices that is a pure function of the seed, takes
`ceil(test_size * n)` indices for the test part and the remaining
`n - n_test` for the train part.  The permutation is embedded as a concrete
seeded Fisher–Yates shuffle; the `entropy` argument stands for the
process-wide random state that would be consulted only if `random_state`
were `None`.
-/

/-- Pandas dataframe: column headers plus rows of numeric values. -/
structure DataFrame where
  cols : List String
  rows : List (List Rat)

/-- XGBoost `DMatrix` (named `XDMatrix` here to avoid Mathlib's `DMatrix`):
data rows, labels, and attached feature names. -/
structure XDMatrix where
  data : List (List Rat)
  label : List Rat
  feature_names : List String
  deriving DecidableEq, Repr

/-- Linear congruential step driving the embedded pseudo-random shuffle. -/
def lcg (s : Nat) : Nat := (1103515245 * s + 12345) % 2147483648

/-- Fuelled Fisher–Yates: repeatedly extract the element at a seed-derived
position and recurse on the remainder with the stepped seed. -/
def fyGo : Nat → Nat → List Nat → List Nat
  | 0, _, l => l
  | fuel + 1, s, l =>
    match l.drop (s % l.length) with
    | [] => l
    | x :: rest => x :: fyGo fuel (lcg s) (l.take (s % l.length) ++ rest)

/-- Seeded shuffle of a list (enough fuel to exhaust it). -/
def shuffle (seed : Nat) (l : List Nat) : List Nat := fyGo l.length seed l

/-- The pseudo-random permutation of `0, ..., n-1` that the seeded
`train_test_split` uses to pick the test rows. -/
def permutationOf (seed n : Nat) : List Nat := shuffle seed (List.range n)

/-- Number of test rows for a float `test_size`: `ceil(test_size * n)`. -/
def nTestOf (test_size : Rat) (n : Nat) : Nat := (⌈test_size * (n : Rat)⌉).toNat

/-- Train and test row-index lists of the seeded split: the permutation's
first `n_test` entries are the test rows, the remaining `n - n_test` the
train rows. -/
def splitIndices (seed : Nat) (test_size : Rat) (n : Nat) : List Nat × List Nat :=
  let perm := permutationOf seed n
  let nt := nTestOf test_size n
  (perm.drop nt, perm.take nt)

/-- Rows of `X` at the given indices. -/
def rowsAt (X : List (List Rat)) (idx : List Nat) : List (List Rat) :=
  idx.map (fun i => X.getD i [])

/-- Entries of `y` at the given indices. -/
def valsAt (y : List Rat) (idx : List Nat) : List Rat :=
  idx.map (fun i => y.getD i 0)

/-- The `sklearn.model_selection.train_test_split(X, y, test_size,
random_state)` call: with `random_state = some seed` the shuffle is a pure
function of the seed; with `random_state = none` it would consult the
process-wide `entropy`.  Returns `(X_train, X_test, y_train, y_test)`. -/
def train_test_split (X : List (List Rat)) (y : List Rat) (test_size : Rat)
    (random_state : Option Nat) (entropy : Nat) :
    List (List Rat) × List (List Rat) × List Rat × List Rat :=
  let seed := random_state.getD entropy
  let (trainIdx, testIdx) := splitIndices seed test_size X.length
  (rowsAt X trainIdx, rowsAt X testIdx, valsAt y trainIdx, valsAt y testIdx)

/-- Pandas column selection `df[c]`: the values of the (first) column named
`c`; a missing name raises `KeyError`. -/
def dfColumn (df : DataFrame) (c : String) : Option (List Rat) :=
  if c ∈ df.cols then
    some (df.rows.map (fun r => r.getD (df.cols.indexOf c) 0))
  else none

/-- Pandas frame selection `df[names]`: every row restricted to the named
columns, in the order of `names`. -/
def selectCols (df : DataFrame) (names : List String) : List (List Rat) :=
  df.rows.map (fun r => names.map (fun c => r.getD (df.cols.indexOf c) 0))

/-- Values of the rightmost column of the dataframe. -/
def lastColumnVals (df : DataFrame) : List Rat :=
  df.rows.map (fun r => r.getD (df.cols.length - 1) 0)

/-- The function `load_data(fname, mode, channel, test_size = 0.05)`, with
the file already read into `df`: split `df[df.columns[:-1]]` against
`df['labels']` with `test_size` and `random_state = 24601`, build the two
DMatrices with `feature_names = df.columns[:-1]`, and also return the raw
test labels.  The `save_binary` / `to_hdf` cache writes only persist these
values to disk.  A table without a column named `labels` raises `KeyError`:
fatal, modelled as `none`. -/
def load_data (df : DataFrame) (entropy : Nat) (test_size : Rat := 5/100) :
    Option ((XDMatrix × XDMatrix) × List Rat) :=
  match dfColumn df "labels" with
  | none => none
  | some y =>
    let featNames := df.cols.dropLast
    let X := selectCols df featNames
    let (X_train, X_test, y_train, y_test) :=
      train_test_split X y test_size (some 24601) entropy
    let dTrain : XDMatrix := ⟨X_train, y_train, featNames⟩
    let dTest : XDMatrix := ⟨X_test, y_test, featNames⟩
    some ((dTrain, dTest), y_test)

/-!
Diagnostics.  The accuracy computation `np.equal(np.greater(xgb_pred, 0.5),
y_true).mean()` compares booleans with the numeric labels (`True == 1.0`,
`False == 0.0`); the files written are the ROC curve pdf
(`plot_ROC_curve`), the feature-importance pdf (`plot_importances`) and the
prediction dump (`np.save`, which appends `.npy`).
-/

/-- Elementwise `np.greater(l, t)`. -/
def np_greater (l : List Rat) (t : Rat) : List Bool :=
  l.map (fun x => t < x)

/-- Elementwise `np.equal` between a boolean array and a float array: numpy
promotes `True` to `1.0` and `False` to `0.0`. -/
def np_equal_bf (bs : List Bool) (ys : List Rat) : List Bool :=
  List.zipWith (fun b y => (if b then (1 : Rat) else 0) = y) bs ys

/-- Mean of a boolean array (`.mean()`): fraction of `True` entries. -/
def boolMean (bs : List Bool) : Rat :=
  (bs.countP id : Rat) / (bs.length : Rat)

/-- File that `plot_ROC_curve` saves. -/
def plot_ROC_curve_file (channel mode : String) : String :=
  "graphs/" ++ channel ++ mode ++ "ROC.pdf"

/-- File that `plot_importances` saves. -/
def plot_importances_file (channel mode : String) : String :=
  "graphs/" ++ channel ++ mode ++ "xgb_importances.pdf"

/-- File that the `np.save` call of `diagnostics` writes: the format string
has two placeholders, so the third argument `'.npy'` is ignored and
`np.save` itself appends the `.npy` suffix. -/
def diagnostics_pred_file (channel mode : String) : String :=
  "test/" ++ channel ++ "/yPred_" ++ mode ++ "_" ++ channel ++ ".npy"

/-- The function `diagnostics(dataDMatrix, df_y_test, bst)` given the raw
predictions `xgb_pred = bst.predict(dTest)`: returns the reported test
accuracy and the list of files written, in the order the script writes
them. -/
def diagnostics (channel mode : String) (xgb_pred y_true : List Rat) :
    Rat × List String :=
  let y_pred := np_greater xgb_pred (1/2)
  let test_accuracy := boolMean (np_equal_bf y_pred y_true)
  (test_accuracy,
   [plot_ROC_curve_file channel mode,
    plot_importances_file channel mode,
    diagnostics_pred_file channel mode])

/-!
Helper lemmas: dictionaries.
-/

theorem find?_map_update (d : Dict) (k : String) (v : Val)
    (h : d.any (fun p => p.1 = k) = true) :
    (d.map (fun p => if p.1 = k then (k, v) else p)).find?
      (fun p => p.1 = k) = some (k, v) := by
  induction d with
  | nil => simp at h
  | cons q t ih =>
    by_cases hq : q.1 = k
    · simp [List.find?, hq]
    · have h' : t.any (fun p => p.1 = k) = true := by simpa [hq] using h
      simpa [List.find?, hq] using ih h'

theorem find?_map_update_ne (d : Dict) (k k' : String) (v : Val)
    (hk : k' ≠ k) :
    (d.map (fun p => if p.1 = k then (k, v) else p)).find?
      (fun p => p.1 = k') = d.find? (fun p => p.1 = k') := by
  induction d with
  | nil => simp
  | cons q t ih =>
    by_cases hq : q.1 = k
    · have h1 : ¬(k = k') := fun h => hk h.symm
      have h2 : ¬(q.1 = k') := by rw [hq]; exact h1
      simp [List.find?, hq, h1, h2, ih]
    · by_cases hq' : q.1 = k' <;> simp [List.find?, hq, hq', hk, ih]

theorem dictGet_dictSet_self (d : Dict) (k : String) (v : Val) :
    dictGet (dictSet d k v) k = some v := by
  unfold dictGet dictSet
  by_cases h : d.any (fun p => p.1 = k) = true
  · rw [if_pos h, find?_map_update d k v h]
    rfl
  · rw [if_neg h]
    have hn : d.find? (fun p => p.1 = k) = none := by
      rw [List.find?_eq_none]
      intro x hx hxk
      exact h (List.any_eq_true.mpr ⟨x, hx, hxk⟩)
    rw [List.find?_append, hn]
    simp [List.find?]

theorem dictGet_dictSet_ne (d : Dict) (k k' : String) (v : Val)
    (hk : k' ≠ k) :
    dictGet (dictSet d k v) k' = dictGet d k' := by
  unfold dictGet dictSet
  by_cases h : d.any (fun p => p.1 = k) = true
  · rw [if_pos h, find?_map_update_ne d k k' v hk]
  · rw [if_neg h, List.find?_append]
    cases hf : d.find? (fun p => p.1 = k') with
    | some q => simp
    | none =>
      have h2 : ¬(k = k') := fun hh => hk hh.symm
      simp [List.find?, h2]

theorem dictGet_map_val (d : Dict) (f : Val → Val) (k : String) :
    dictGet (d.map (fun p => (p.1, f p.2))) k = (dictGet d k).map f := by
  induction d with
  | nil => simp [dictGet]
  | cons q t ih =>
    by_cases hq : q.1 = k
    · simp [dictGet, List.find?, hq]
    · simpa [dictGet, List.find?, hq] using ih

theorem dictKeys_map_val (d : Dict) (f : Val → Val) :
    dictKeys (d.map (fun p => (p.1, f p.2))) = dictKeys d := by
  simp [dictKeys, List.map_map, Function.comp]

/-!
Helper lemmas: the sampled hyperparameter dictionary.
-/

theorem raw_sample_eq (s : HypSample) :
    raw_sample s =
      if s.useDart then
        [("booster", .vStr "dart"),
         ("eta", .vFloat s.lr),
         ("gamma", .vFloat s.mlr),
         ("min_child_weight", .vFloat s.mcw),
         ("max_depth", .vFloat ((pyRound s.md : Int) : Rat)),
         ("subsample", .vFloat s.ss),
         ("colsample_bytree", .vFloat s.cs),
         ("objective", .vStr "binary:logistic"),
         ("silent", .vInt 1),
         ("sample_type", .vStr (if s.dart_st then "uniform" else "weighted")),
         ("normalize_type", .vStr (if s.dart_nt then "tree" else "forest")),
         ("rate_drop", .vFloat s.dropout),
         ("skip_drop", .vFloat s.skip)]
      else gbtree_hyp s := by
  unfold raw_sample
  cases hd : s.useDart <;>
    simp [dictMerge, dart_hyp, gbtree_hyp, dictSet]

theorem coerce_ne_default (v : Val) (h : v ≠ .vStr "default") :
    coerceWholeFloat v ≠ .vStr "default" := by
  cases v with
  | vInt n => simp [coerceWholeFloat]
  | vFloat q => by_cases hq : q.den = 1 <;> simp [coerceWholeFloat, hq]
  | vStr s => simpa [coerceWholeFloat] using h

theorem raw_sample_values_ne_default (s : HypSample) :
    ∀ p ∈ raw_sample s, p.2 ≠ Val.vStr "default" := by
  rw [raw_sample_eq]
  cases s.useDart
  · simp [gbtree_hyp]
  · simp only [if_true]
    simp [gbtree_hyp]
    constructor <;> split <;> simp

theorem get_hyp_config_eq (s : HypSample) :
    get_hyp_config s =
      (raw_sample s).map (fun p => (p.1, coerceWholeFloat p.2)) := by
  unfold get_hyp_config
  apply List.filter_eq_self.mpr
  intro p hp
  obtain ⟨q, hq, rfl⟩ := List.mem_map.mp hp
  simpa using coerce_ne_default q.2 (raw_sample_values_ne_default s q hq)

/-- The coercion never produces a whole-number float. -/
theorem coerce_not_whole (v : Val) (r : Rat)
    (h : coerceWholeFloat v = .vFloat r) : r.den ≠ 1 := by
  cases v with
  | vInt n => simp [coerceWholeFloat] at h
  | vFloat q =>
    by_cases hq : q.den = 1 <;> simp [coerceWholeFloat, hq] at h
    rw [← h]; exact hq
  | vStr s => simp [coerceWholeFloat] at h

theorem dictKeys_get_hyp_config (s : HypSample) :
    dictKeys (get_hyp_config s) =
      if s.useDart then
        ["booster", "eta", "gamma", "min_child_weight", "max_depth",
         "subsample", "colsample_bytree", "objective", "silent",
         "sample_type", "normalize_type", "rate_drop", "skip_drop"]
      else
        ["booster", "eta", "gamma", "min_child_weight", "max_depth",
         "subsample", "colsample_bytree", "objective", "silent"] := by
  rw [get_hyp_config_eq, dictKeys_map_val, raw_sample_eq]
  cases s.useDart <;> simp [dictKeys, gbtree_hyp]

theorem dictGet_raw_sample_max_depth (s : HypSample) :
    dictGet (raw_sample s) "max_depth" =
      some (.vFloat ((pyRound s.md : Int) : Rat)) := by
  rw [raw_sample_eq]
  cases s.useDart <;> simp [dictGet, List.find?, gbtree_hyp]

/-!
Helper lemmas: the rounded depth draw stays inside the prior's range.
-/

theorem pyRound_ge (x : Rat) (a : Int) (h : (a : Rat) ≤ x) :
    a ≤ pyRound x := by
  have haf : a ≤ ⌊x⌋ := Int.le_floor.mpr h
  unfold pyRound
  split
  · exact haf
  · split
    · omega
    · split
      · exact haf
      · omega

theorem pyRound_le (x : Rat) (b : Int) (h : x ≤ (b : Rat)) :
    pyRound x ≤ b := by
  have hfl : (⌊x⌋ : Rat) ≤ x := Int.floor_le x
  have hfb : ⌊x⌋ ≤ b := le_trans (Int.floor_le_floor h)
    (le_of_eq (Int.floor_intCast b))
  have key : ¬(x - ⌊x⌋ < 1/2) → ⌊x⌋ + 1 ≤ b := by
    intro hge
    push_neg at hge
    by_contra hc
    have hbe : b = ⌊x⌋ := by omega
    have hhalf : (b : Rat) + 1/2 ≤ x := by
      rw [hbe]; linarith
    linarith
  unfold pyRound
  split
  · exact hfb
  · next h1 =>
    split
    · exact key h1
    · split
      · exact hfb
      · exact key h1

/-!
Concrete sample used as a witness input: the gbtree branch with draws
inside every prior's range and the depth draw landing exactly on 5.
-/

def sampleEx : HypSample :=
  ⟨false, 3/100, 1, 1, 5, 3/4, 3/4, true, true, 1/10, 1/10⟩

theorem validSample_sampleEx : validSample sampleEx := by
  norm_num [validSample, sampleEx]

theorem pyRound_five : pyRound (5 : Rat) = 5 := by
  have h5 : ⌊(5 : Rat)⌋ = 5 := by norm_num
  simp [pyRound, h5]

theorem raw_sample_max_depth_sampleEx :
    dictGet (raw_sample sampleEx) "max_depth" = some (.vFloat 5) := by
  rw [dictGet_raw_sample_max_depth]
  simp [sampleEx, pyRound_five]

/-!
Claim theorems: the hyperparameter provider.
-/

/-- C1: every value of the mapping `get_hyp_config` returns that would be a
whole-number float is returned as an integer instead (a whole-number float
sampled at key `k` shows up as `vInt` at `k`, and no value of the result is
a whole-number float), and no value of the result is the string
`'default'`. -/
theorem get_hyp_config_int_coercion_and_no_default (s : HypSample) :
    (∀ (k : String) (q : Rat),
        dictGet (raw_sample s) k = some (.vFloat q) → q.den = 1 →
        dictGet (get_hyp_config s) k = some (.vInt q.num)) ∧
    (∀ p ∈ get_hyp_config s,
        (∀ q : Rat, p.2 = .vFloat q → q.den ≠ 1) ∧
        p.2 ≠ .vStr "default") := by
  constructor
  · intro k q hraw hden
    rw [get_hyp_config_eq, dictGet_map_val, hraw]
    simp [coerceWholeFloat, hden]
  · intro p hp
    have hp' := hp
    rw [get_hyp_config_eq] at hp'
    obtain ⟨q, hq, rfl⟩ := List.mem_map.mp hp'
    exact ⟨fun r hr => coerce_not_whole q.2 r hr,
      coerce_ne_default q.2 (raw_sample_values_ne_default s q hq)⟩

/-- Witness for C1 at the concrete sample: the whole-number float 5.0 drawn
for `max_depth` comes back as the integer 5. -/
theorem get_hyp_config_int_coercion_witness :
    dictGet (get_hyp_config sampleEx) "max_depth" = some (.vInt 5) := by
  have h := (get_hyp_config_int_coercion_and_no_default sampleEx).1
    "max_depth" 5 raw_sample_max_depth_sampleEx (by decide)
  simpa using h

/-- C4: the mapping `get_hyp_config` returns has exactly the nine common
tree-boosting keys when the gbtree branch was sampled and those plus the
four dropout-specific keys when the dart branch was sampled; each
dropout-specific key is present iff the dart branch was sampled, and the
`booster` value is `'dart'` on the dart branch and `'gbtree'` otherwise. -/
theorem get_hyp_config_keys_by_branch (s : HypSample) :
    dictKeys (get_hyp_config s) =
      (if s.useDart then
        ["booster", "eta", "gamma", "min_child_weight", "max_depth",
         "subsample", "colsample_bytree", "objective", "silent",
         "sample_type", "normalize_type", "rate_drop", "skip_drop"]
      else
        ["booster", "eta", "gamma", "min_child_weight", "max_depth",
         "subsample", "colsample_bytree", "objective", "silent"]) ∧
    ("sample_type" ∈ dictKeys (get_hyp_config s) ↔ s.useDart = true) ∧
    ("normalize_type" ∈ dictKeys (get_hyp_config s) ↔ s.useDart = true) ∧
    ("rate_drop" ∈ dictKeys (get_hyp_config s) ↔ s.useDart = true) ∧
    ("skip_drop" ∈ dictKeys (get_hyp_config s) ↔ s.useDart = true) ∧
    dictGet (get_hyp_config s) "booster" =
      some (.vStr (if s.useDart then "dart" else "gbtree")) := by
  refine ⟨dictKeys_get_hyp_config s, ?_, ?_, ?_, ?_, ?_⟩
  · rw [dictKeys_get_hyp_config]; cases s.useDart <;> simp
  · rw [dictKeys_get_hyp_config]; cases s.useDart <;> simp
  · rw [dictKeys_get_hyp_config]; cases s.useDart <;> simp
  · rw [dictKeys_get_hyp_config]; cases s.useDart <;> simp
  · rw [get_hyp_config_eq, dictGet_map_val, raw_sample_eq]
    cases s.useDart <;>
      simp [dictGet, List.find?, gbtree_hyp, coerceWholeFloat]

/-- C9: every hyperparameter mapping the program can construct — either
default preset and either sampled branch, before and after the trainer's
in-place mutation — holds the keys `eta` and `max_depth`, so the
diagnostics lookups `hp['eta']` and `hp['max_depth']` cannot miss. -/
theorem eta_max_depth_always_present :
    (∀ deep : Bool,
      (dictGet (hp_default_config deep) "eta").isSome = true ∧
      (dictGet (hp_default_config deep) "max_depth").isSome = true) ∧
    (∀ s : HypSample,
      (dictGet (get_hyp_config s) "eta").isSome = true ∧
      (dictGet (get_hyp_config s) "max_depth").isSome = true) ∧
    (∀ deep : Bool,
      (dictGet (train_hyp_config_hyp (hp_default_config deep)) "eta").isSome
        = true ∧
      (dictGet (train_hyp_config_hyp (hp_default_config deep))
        "max_depth").isSome = true) ∧
    (∀ s : HypSample,
      (dictGet (train_hyp_config_hyp (get_hyp_config s)) "eta").isSome
        = true ∧
      (dictGet (train_hyp_config_hyp (get_hyp_config s)) "max_depth").isSome
        = true) := by
  have hrand : ∀ (s : HypSample) (k : String), k = "eta" ∨ k = "max_depth" →
      (dictGet (get_hyp_config s) k).isSome = true := by
    intro s k hk
    rw [get_hyp_config_eq, dictGet_map_val, raw_sample_eq]
    rcases hk with rfl | rfl <;>
      cases s.useDart <;> simp [dictGet, List.find?, gbtree_hyp]
  have hdef : ∀ (deep : Bool) (k : String), k = "eta" ∨ k = "max_depth" →
      (dictGet (hp_default_config deep) k).isSome = true := by
    intro deep k hk
    rcases hk with rfl | rfl <;>
      cases deep <;> simp [dictGet, List.find?, hp_default_config]
  refine ⟨fun deep => ⟨hdef deep _ (Or.inl rfl), hdef deep _ (Or.inr rfl)⟩,
    fun s => ⟨hrand s _ (Or.inl rfl), hrand s _ (Or.inr rfl)⟩,
    fun deep => ⟨?_, ?_⟩, fun s => ⟨?_, ?_⟩⟩ <;>
    rw [train_hyp_config_hyp, dictGet_dictSet_ne _ _ _ _ (by decide)]
  · exact hdef deep _ (Or.inl rfl)
  · exact hdef deep _ (Or.inr rfl)
  · exact hrand s _ (Or.inl rfl)
  · exact hrand s _ (Or.inr rfl)

/-- C10: in every mapping the random provider returns from a sample whose
draws respect the priors, `max_depth` is an integer between 3 and 9. -/
theorem get_hyp_config_max_depth_range (s : HypSample)
    (h : validSample s) :
    ∃ d : Int, dictGet (get_hyp_config s) "max_depth" = some (.vInt d) ∧
      3 ≤ d ∧ d ≤ 9 := by
  obtain ⟨-, -, -, -, -, -, hmd3, hmd9, -⟩ := h
  refine ⟨pyRound s.md, ?_, ?_, ?_⟩
  · rw [get_hyp_config_eq, dictGet_map_val, dictGet_raw_sample_max_depth]
    simp [coerceWholeFloat, Rat.den_intCast, Rat.num_intCast]
  · exact pyRound_ge s.md 3 (by exact_mod_cast hmd3)
  · exact pyRound_le s.md 9 (by exact_mod_cast hmd9)

/-- Witness for C10: the concrete sample is valid and its `max_depth` is an
integer in range. -/
theorem get_hyp_config_max_depth_range_witness :
    validSample sampleEx ∧
      ∃ d : Int, dictGet (get_hyp_config sampleEx) "max_depth" =
        some (.vInt d) ∧ 3 ≤ d ∧ d ≤ 9 :=
  ⟨validSample_sampleEx,
    get_hyp_config_max_depth_range sampleEx validSample_sampleEx⟩

/-!
Claim theorems: the trainer's treatment of the hyperparameter mapping
(C2) and the evaluation record (C8), and the round resolution (C6).
-/

/-- C2 counterexample: the claim that the trainer never mutates the mapping
fails — `train_hyp_config` adds the key `eval_metric` to the caller's
dictionary, so the shallow default mapping is no longer the mapping the
provider constructed after the trainer touches it. -/
theorem trainer_mutates_mapping :
    train_hyp_config_hyp (hp_default_config false) ≠
      hp_default_config false := by
  intro h
  have h2 := congrArg (fun d => dictGet d "eval_metric") h
  simp only [train_hyp_config_hyp] at h2
  rw [dictGet_dictSet_self] at h2
  simp [dictGet, List.find?, hp_default_config] at h2

/-- C2 amended: the only mutation the trainer applies to the mapping is
setting `eval_metric` to `'error@0.5'`; every other key keeps exactly the
value it had when the provider constructed the mapping. -/
theorem trainer_mutation_only_eval_metric (hyp_params : Dict) :
    dictGet (train_hyp_config_hyp hyp_params) "eval_metric" =
      some (.vStr "error@0.5") ∧
    ∀ k : String, k ≠ "eval_metric" →
      dictGet (train_hyp_config_hyp hyp_params) k = dictGet hyp_params k := by
  exact ⟨dictGet_dictSet_self _ _ _,
    fun k hk => dictGet_dictSet_ne _ _ _ _ hk⟩

/-- Witness for the amended C2 at the shallow default mapping and the key
`eta`. -/
theorem trainer_mutation_only_eval_metric_witness :
    dictGet (train_hyp_config_hyp (hp_default_config false)) "eta" =
      dictGet (hp_default_config false) "eta" :=
  (trainer_mutation_only_eval_metric (hp_default_config false)).2
    "eta" (by decide)

/-- C6 counterexample: with the flag value 0 the trainer is invoked with 512
rounds, not 0 — Python truthiness treats `0` like an absent flag. -/
theorem resolve_num_boost_rounds_zero :
    resolve_num_boost_rounds (some 0) = 512 ∧ (512 : Int) ≠ 0 := by
  constructor <;> decide

/-- C6 amended: every nonzero integer supplied via the flag overrides the
default and reaches the trainer unchanged; with the flag absent (or equal
to 0) the trainer gets 512 rounds. -/
theorem resolve_num_boost_rounds_spec :
    (∀ n : Int, n ≠ 0 → resolve_num_boost_rounds (some n) = n) ∧
    resolve_num_boost_rounds none = 512 := by
  refine ⟨fun n hn => ?_, rfl⟩
  simp [resolve_num_boost_rounds, hn]

/-- Witness for the amended C6 at the flag value 7. -/
theorem resolve_num_boost_rounds_spec_witness :
    resolve_num_boost_rounds (some 7) = 7 :=
  resolve_num_boost_rounds_spec.1 7 (by decide)

/-- C8: every evaluation record the trainer builds has exactly the keys
`auc`, `error@0.5` and `best_iteration`; `auc` is the float best score,
`best_iteration` the integer best iteration, and `error@0.5` the
second-to-last tab-delimited field of the booster's best-message string. -/
theorem evalDict_shape (bst : Booster) (d : Dict)
    (h : mk_evalDict bst = some d) :
    dictKeys d = ["auc", "error@0.5", "best_iteration"] ∧
    dictGet d "auc" = some (.vFloat bst.best_score) ∧
    dictGet d "best_iteration" = some (.vInt bst.best_iteration) ∧
    2 ≤ (pySplitTab bst.best_msg).length ∧
    dictGet d "error@0.5" =
      some (.vStr ((pySplitTab bst.best_msg).getD
        ((pySplitTab bst.best_msg).length - 2) "")) := by
  simp only [mk_evalDict] at h
  split at h
  · next hlen =>
    injection h with h
    subst h
    refine ⟨by simp [dictKeys], ?_, ?_, hlen, ?_⟩ <;>
      simp [dictGet, List.find?]
  · exact absurd h (by simp)

/-- Booster attributes used as the witness input for the evaluation
record. -/
def boosterEx : Booster := ⟨1/2, "a\tb\tc", 7⟩

theorem mk_evalDict_boosterEx :
    mk_evalDict boosterEx =
      some [("auc", .vFloat (1/2)), ("error@0.5", .vStr "b"),
            ("best_iteration", .vInt 7)] := rfl

/-- Witness for C8 at the concrete booster: the record's keys are exactly
the three expected ones. -/
theorem evalDict_shape_witness :
    dictKeys [(("auc" : String), Val.vFloat (1/2)),
      ("error@0.5", Val.vStr "b"), ("best_iteration", Val.vInt 7)] =
      ["auc", "error@0.5", "best_iteration"] :=
  (evalDict_shape boosterEx _ mk_evalDict_boosterEx).1

/-!
Helper lemmas: the seeded shuffle is a permutation, and the split covers
the rows disjointly.
-/

theorem fyGo_perm (fuel : Nat) : ∀ (s : Nat) (l : List Nat),
    (fyGo fuel s l).Perm l := by
  induction fuel with
  | zero => intro s l; simp [fyGo]
  | succ n ih =>
    intro s l
    rw [fyGo]
    cases hd : l.drop (s % l.length) with
    | nil => exact List.Perm.refl l
    | cons x rest =>
      have hsplit : l.take (s % l.length) ++ x :: rest = l := by
        rw [← hd, List.take_append_drop]
      have h2 := ((ih (lcg s) (l.take (s % l.length) ++ rest)).cons x).trans
        (@List.perm_middle _ x (l.take (s % l.length)) rest).symm
      rw [hsplit] at h2
      exact h2

theorem permutationOf_perm (seed n : Nat) :
    (permutationOf seed n).Perm (List.range n) :=
  fyGo_perm _ _ _

theorem permutationOf_nodup (seed n : Nat) :
    (permutationOf seed n).Nodup :=
  ((permutationOf_perm seed n).nodup_iff).mpr (List.nodup_range n)

theorem map_getD_range {α : Type} (l : List α) (d : α) :
    (List.range l.length).map (fun i => l.getD i d) = l := by
  apply List.ext_getElem
  · simp
  · intro i h1 h2
    simp only [List.getElem_map, List.getElem_range]
    exact List.getD_eq_getElem l d h2

/-- The two index lists of the split are disjoint. -/
theorem splitIndices_disjoint (seed : Nat) (ts : Rat) (n : Nat) :
    (splitIndices seed ts n).1.Disjoint (splitIndices seed ts n).2 := by
  have hnd : (permutationOf seed n).Nodup := permutationOf_nodup seed n
  rw [← List.take_append_drop (nTestOf ts n) (permutationOf seed n),
    List.nodup_append] at hnd
  exact hnd.2.2.symm

/-- Reading a list back at the two index lists of the split yields a
permutation of the whole list: the split parts together cover it. -/
theorem splitIndices_cover {α : Type} (seed : Nat) (ts : Rat) (l : List α)
    (d : α) :
    ((splitIndices seed ts l.length).1.map (fun i => l.getD i d) ++
      (splitIndices seed ts l.length).2.map (fun i => l.getD i d)).Perm
      l := by
  have h0 : ((permutationOf seed l.length).take (nTestOf ts l.length) ++
      (permutationOf seed l.length).drop (nTestOf ts l.length)).Perm
      (List.range l.length) := by
    rw [List.take_append_drop]
    exact permutationOf_perm seed l.length
  have h1 : ((permutationOf seed l.length).drop (nTestOf ts l.length) ++
      (permutationOf seed l.length).take (nTestOf ts l.length)).Perm
      (List.range l.length) :=
    List.perm_append_comm.trans h0
  have h2 := h1.map (fun i => l.getD i d)
  rw [map_getD_range l d, List.map_append] at h2
  simpa [splitIndices] using h2

/-!
Helper lemmas: unfolding the data loader.
-/

theorem selectCols_length (df : DataFrame) (names : List String) :
    (selectCols df names).length = df.rows.length := by
  simp [selectCols]

theorem load_data_eq (df : DataFrame) (e : Nat) (ts : Rat) (y : List Rat)
    (h : dfColumn df "labels" = some y) :
    load_data df e ts = some
      ((⟨rowsAt (selectCols df df.cols.dropLast)
            (splitIndices 24601 ts df.rows.length).1,
         valsAt y (splitIndices 24601 ts df.rows.length).1,
         df.cols.dropLast⟩,
        ⟨rowsAt (selectCols df df.cols.dropLast)
            (splitIndices 24601 ts df.rows.length).2,
         valsAt y (splitIndices 24601 ts df.rows.length).2,
         df.cols.dropLast⟩),
       valsAt y (splitIndices 24601 ts df.rows.length).2) := by
  simp [load_data, h, train_test_split, selectCols_length]

theorem dfColumn_length (df : DataFrame) (c : String) (y : List Rat)
    (h : dfColumn df c = some y) : y.length = df.rows.length := by
  unfold dfColumn at h
  split at h
  · injection h with h
    subst h
    simp
  · exact absurd h (by simp)

theorem indexOf_getLast (l : List String) (c : String)
    (h1 : l.getLast? = some c) (h2 : c ∉ l.dropLast) :
    l.indexOf c = l.length - 1 := by
  induction l with
  | nil => simp at h1
  | cons a t ih =>
    cases t with
    | nil =>
      simp only [List.getLast?_singleton, Option.some.injEq] at h1
      subst h1
      simp [List.indexOf_cons]
    | cons b t' =>
      have h1' : (b :: t').getLast? = some c := by
        rwa [List.getLast?_cons_cons] at h1
      have h2a : c ≠ a := by
        intro hca
        exact h2 (by simp [List.dropLast_cons₂, hca.symm])
      have h2' : c ∉ (b :: t').dropLast := by
        intro hc
        exact h2 (by simp [List.dropLast_cons₂, hc])
      have hb : (a == c) = false := by
        simp [beq_eq_false_iff_ne]
        exact fun h => h2a h.symm
      rw [List.indexOf_cons, hb]
      simp only [cond_false]
      rw [ih h1' h2']
      simp

theorem dfColumn_last (df : DataFrame)
    (h1 : df.cols.getLast? = some "labels")
    (h2 : "labels" ∉ df.cols.dropLast) :
    dfColumn df "labels" = some (lastColumnVals df) := by
  have hne : df.cols ≠ [] := by
    intro hc
    rw [hc] at h1
    simp at h1
  have hmem : "labels" ∈ df.cols := by
    have := List.getLast?_eq_getLast df.cols hne
    rw [this] at h1
    injection h1 with h1
    rw [← h1]
    exact List.getLast_mem hne
  rw [dfColumn, if_pos hmem, indexOf_getLast df.cols "labels" h1 h2]
  rfl

/-!
Concrete tables and evaluations used by counterexamples and witnesses.
-/

/-- A table whose column named `labels` is the leftmost, not the rightmost,
column: the loader still accepts it. -/
def dfBad : DataFrame := ⟨["labels", "x"], [[0, 10], [1, 20]]⟩

/-- A well-formed table: the rightmost column is the one named `labels`. -/
def dfEx : DataFrame :=
  ⟨["a", "b", "labels"], [[1, 2, 0], [3, 4, 1], [5, 6, 0], [7, 8, 1]]⟩

theorem nTestOf_two : nTestOf (5/100) 2 = 1 := by
  unfold nTestOf
  have h : ⌈(5/100 : Rat) * ((2 : Nat) : Rat)⌉ = 1 := by
    rw [Int.ceil_eq_iff]; norm_num
  rw [h]
  rfl

theorem nTestOf_four : nTestOf (5/100) 4 = 1 := by
  unfold nTestOf
  have h : ⌈(5/100 : Rat) * ((4 : Nat) : Rat)⌉ = 1 := by
    rw [Int.ceil_eq_iff]; norm_num
  rw [h]
  rfl

theorem permutationOf_two : permutationOf 24601 2 = [1, 0] := by decide

theorem permutationOf_four : permutationOf 24601 4 = [1, 3, 2, 0] := by
  decide

theorem splitIndices_two : splitIndices 24601 (5/100) 2 = ([0], [1]) := by
  simp [splitIndices, permutationOf_two, nTestOf_two]

theorem splitIndices_four :
    splitIndices 24601 (5/100) 4 = ([3, 2, 0], [1]) := by
  simp [splitIndices, permutationOf_four, nTestOf_four]

theorem dfColumn_dfBad : dfColumn dfBad "labels" = some [0, 1] := by
  simp [dfColumn, dfBad, List.indexOf_cons]

theorem dfColumn_dfEx : dfColumn dfEx "labels" = some [0, 1, 0, 1] := by
  simp [dfColumn, dfEx, List.indexOf_cons]

theorem load_data_dfBad :
    load_data dfBad 0 =
      some ((⟨[[0]], [0], ["labels"]⟩, ⟨[[1]], [1], ["labels"]⟩), [1]) := by
  rw [load_data_eq dfBad 0 (5/100) [0, 1] dfColumn_dfBad]
  simp only [dfBad]
  rw [show ([[(0 : Rat), 10], [1, 20]] : List (List Rat)).length = 2 by rfl,
    splitIndices_two]
  simp [rowsAt, valsAt, selectCols, List.indexOf_cons]

theorem load_data_dfEx :
    load_data dfEx 0 =
      some ((⟨[[7, 8], [5, 6], [1, 2]], [1, 0, 0], ["a", "b"]⟩,
             ⟨[[3, 4]], [1], ["a", "b"]⟩), [1]) := by
  rw [load_data_eq dfEx 0 (5/100) [0, 1, 0, 1] dfColumn_dfEx]
  simp only [dfEx]
  rw [show ([[(1 : Rat), 2, 0], [3, 4, 1], [5, 6, 0], [7, 8, 1]] :
      List (List Rat)).length = 4 by rfl, splitIndices_four]
  simp [rowsAt, valsAt, selectCols, List.indexOf_cons]

/-!
Claim theorems: the data loader.
-/

/-- C5: the loader is a pure function of the table — the process-wide
entropy that a `None` random state would consult is never read, so repeated
runs split identically — and on success the train and test parts use
disjoint row-index sets and together cover the feature rows and the label
column of the input table. -/
theorem load_data_deterministic_disjoint_covering :
    (∀ (df : DataFrame) (e1 e2 : Nat) (ts : Rat),
        load_data df e1 ts = load_data df e2 ts) ∧
    (∀ (df : DataFrame) (e : Nat)
        (res : (XDMatrix × XDMatrix) × List Rat),
        load_data df e = some res →
        (res.1.1.data ++ res.1.2.data).Perm
          (selectCols df df.cols.dropLast) ∧
        (∃ y, dfColumn df "labels" = some y ∧
          (res.1.1.label ++ res.1.2.label).Perm y) ∧
        (splitIndices 24601 (5/100) df.rows.length).1.Disjoint
          (splitIndices 24601 (5/100) df.rows.length).2) := by
  constructor
  · intro df e1 e2 ts
    rfl
  · intro df e res h
    cases hy : dfColumn df "labels" with
    | none => rw [load_data, hy] at h; exact absurd h (by simp)
    | some y =>
      rw [load_data_eq df e (5/100) y hy] at h
      injection h with h
      subst h
      refine ⟨?_, ⟨y, rfl, ?_⟩, splitIndices_disjoint _ _ _⟩
      · have hc := splitIndices_cover 24601 (5/100)
          (selectCols df df.cols.dropLast) ([] : List Rat)
        rw [selectCols_length] at hc
        simpa [rowsAt] using hc
      · have hc := splitIndices_cover 24601 (5/100) y (0 : Rat)
        rw [dfColumn_length df "labels" y hy] at hc
        simpa [valsAt] using hc

/-- Witness for C5 at the concrete table: the loaded train and test feature
rows together are a permutation of the table's feature rows. -/
theorem load_data_covering_witness :
    (([[7, 8], [5, 6], [1, 2]] ++ [[(3 : Rat), 4]]) :
        List (List Rat)).Perm (selectCols dfEx dfEx.cols.dropLast) :=
  (load_data_deterministic_disjoint_covering.2 dfEx 0 _ load_data_dfEx).1

/-- C3 counterexample: on a table whose `labels` column is not the
rightmost one, the loader still succeeds, and the labels it attaches to the
train matrix are not the rightmost column's values at the train indices —
they are the values of the column named `labels`. -/
theorem load_data_labels_not_rightmost :
    load_data dfBad 0 =
      some ((⟨[[0]], [0], ["labels"]⟩, ⟨[[1]], [1], ["labels"]⟩), [1]) ∧
    valsAt (lastColumnVals dfBad)
      (splitIndices 24601 (5/100) dfBad.rows.length).1 = [10] ∧
    ([(0 : Rat)] : List Rat) ≠ [10] := by
  refine ⟨load_data_dfBad, ?_, by decide⟩
  show valsAt (lastColumnVals dfBad) (splitIndices 24601 (5/100) 2).1 = _
  rw [splitIndices_two]
  simp [valsAt, lastColumnVals, dfBad]

/-- C3 amended: the labels the loader attaches to both matrices are the
values of the column named `labels` (at the split's train and test
indices), and the feature names attached to both matrices are exactly the
all-but-last column headers in order; when the rightmost column is the one
named `labels` (and no earlier column bears that name), the labels do come
from the rightmost column, as the claim stated. -/
theorem load_data_labels_from_labels_column (df : DataFrame) (e : Nat)
    (res : (XDMatrix × XDMatrix) × List Rat)
    (h : load_data df e = some res) :
    (∃ y, dfColumn df "labels" = some y ∧
      res.1.1.label = valsAt y (splitIndices 24601 (5/100) df.rows.length).1 ∧
      res.1.2.label =
        valsAt y (splitIndices 24601 (5/100) df.rows.length).2) ∧
    res.1.1.feature_names = df.cols.dropLast ∧
    res.1.2.feature_names = df.cols.dropLast ∧
    (df.cols.getLast? = some "labels" → "labels" ∉ df.cols.dropLast →
      res.1.1.label = valsAt (lastColumnVals df)
        (splitIndices 24601 (5/100) df.rows.length).1 ∧
      res.1.2.label = valsAt (lastColumnVals df)
        (splitIndices 24601 (5/100) df.rows.length).2) := by
  cases hy : dfColumn df "labels" with
  | none => rw [load_data, hy] at h; exact absurd h (by simp)
  | some y =>
    rw [load_data_eq df e (5/100) y hy] at h
    injection h with h
    subst h
    refine ⟨⟨y, rfl, rfl, rfl⟩, rfl, rfl, fun h1 h2 => ?_⟩
    have := dfColumn_last df h1 h2
    rw [hy] at this
    injection this with this
    rw [← this]
    exact ⟨rfl, rfl⟩

/-- Witness for the amended C3 at the well-formed table: its rightmost
column is named `labels`, and the train labels indeed come from it. -/
theorem load_data_labels_witness :
    ([(1 : Rat), 0, 0] : List Rat) =
      valsAt (lastColumnVals dfEx)
        (splitIndices 24601 (5/100) dfEx.rows.length).1 :=
  ((load_data_labels_from_labels_column dfEx 0 _ load_data_dfEx).2.2.2
    (by decide) (by decide)).1

/-!
Claim theorems: diagnostics.
-/

theorem countP_zipWith_range {α β : Type} (f : α → β → Bool)
    (as : List α) (bs : List β) (da : α) (db : β)
    (h : as.length = bs.length) :
    (List.zipWith f as bs).countP id =
      (List.range bs.length).countP
        (fun i => f (as.getD i da) (bs.getD i db)) := by
  induction as generalizing bs with
  | nil =>
    have hb : bs = [] := by
      cases bs with
      | nil => rfl
      | cons b t => simp at h
    subst hb
    simp
  | cons a t ih =>
    cases bs with
    | nil => simp at h
    | cons b u =>
      have h' : t.length = u.length := by simpa using h
      rw [List.zipWith_cons_cons, List.countP_cons, List.length_cons,
        List.range_succ_eq_map, List.countP_cons, List.countP_map,
        ih u h']
      simp [Function.comp_def]

/-- C7: the accuracy the diagnostics step reports is exactly the fraction
of test rows whose thresholded prediction (`predicted probability > 0.5`,
promoted to 1.0/0.0) equals the true label, and the files it writes are
exactly two image files — the ROC curve and the feature importances — and
one prediction array file. -/
theorem diagnostics_accuracy_and_files (channel mode : String)
    (xgb_pred y_true : List Rat)
    (hlen : xgb_pred.length = y_true.length) :
    (diagnostics channel mode xgb_pred y_true).1 =
      (((List.range y_true.length).countP
        (fun i => (if (1 : Rat)/2 < xgb_pred.getD i 0 then (1 : Rat) else 0)
          = y_true.getD i 0)) : Rat) / (y_true.length : Rat) ∧
    (diagnostics channel mode xgb_pred y_true).2 =
      ["graphs/" ++ channel ++ mode ++ "ROC.pdf",
       "graphs/" ++ channel ++ mode ++ "xgb_importances.pdf",
       "test/" ++ channel ++ "/yPred_" ++ mode ++ "_" ++ channel ++
         ".npy"] := by
  constructor
  · show boolMean (np_equal_bf (np_greater xgb_pred (1/2)) y_true) = _
    unfold boolMean np_equal_bf np_greater
    rw [List.zipWith_map_left,
      countP_zipWith_range _ xgb_pred y_true 0 0 hlen,
      List.length_zipWith, hlen, min_self]
    simp only [decide_eq_true_eq]
  · rfl

/-- Witness for C7 at two predictions and two labels (`hlen` discharged by
`rfl`): the reported accuracy instance of the theorem. -/
theorem diagnostics_accuracy_witness :
    (diagnostics "c" "m" [3/4, 1/4] [1, 0]).1 =
      (((List.range ([(1 : Rat), 0] : List Rat).length).countP
        (fun i => (if (1 : Rat)/2 <
            ([3/4, 1/4] : List Rat).getD i 0 then (1 : Rat) else 0)
          = ([(1 : Rat), 0] : List Rat).getD i 0)) : Rat) /
        (([(1 : Rat), 0] : List Rat).length : Rat) :=
  (diagnostics_accuracy_and_files "c" "m" [3/4, 1/4] [1, 0] rfl).1
